import Mathlib

/-!
Shallow embedding of `process_metro_complaints.py`: a batch script that reads
complaint records from a spreadsheet, extracts four structured fields per
record by prompting a language-model capability, and reports summary
statistics.  The spreadsheet reader/writer and the model runtime are external
collaborators; they appear here as explicit parameters (`Except`-valued
inputs and a `Capability` function).  Machine-level effects (printing,
sleeping) are modelled by counting: the batch runner returns the number of
pacing pauses it performed, and extraction returns the number of model
invocations it made.
-/

/-- A spreadsheet cell value as the script sees it through pandas: a missing
value (NaN), a text value, or a non-text (numeric) value.  `row.get` hands
any of these to the per-record processing. -/
inductive Cell where
  | na : Cell
  | str : String → Cell
  | num : Int → Cell
deriving DecidableEq, Repr

/-- Embeds `pd.isna`: true exactly on the missing value. -/
def Cell.isna : Cell → Bool
  | .na => true
  | _ => false

/-- True when the cell is text or missing — the cases in which Python's
`content.strip()` check does not raise.  A numeric cell has no `.strip`
method and raises `AttributeError`. -/
def Cell.isTextual : Cell → Bool
  | .num _ => false
  | _ => true

/-- Embeds Python's `str.strip()`: remove leading and trailing whitespace. -/
def pyStrip (s : String) : String :=
  String.mk (((s.data.dropWhile Char.isWhitespace).reverse.dropWhile Char.isWhitespace).reverse)

/-- The four optional extracted fields, one instance per record.  In the
script this is the dictionary with keys 线路 / 小区/位置 / 噪音类型 / 振动类型
returned by `extract_info_from_content`. -/
structure ExtractedInfo where
  line : Option String
  location : Option String
  noise_type : Option String
  vibration_type : Option String
deriving DecidableEq, Repr

/-- The all-absent extraction result, returned on skip and on failure. -/
def allAbsent : ExtractedInfo :=
  { line := none, location := none, noise_type := none, vibration_type := none }

/-- The parsed payload of a successful `model.respond(...)` call:
`response.parsed` is either a key-value mapping (`isinstance(result, dict)`)
or a schema object; in both cases each of the four fields is an optional
string. -/
inductive ParsedResult where
  | dict (line location noise_type vibration_type : Option String)
  | obj (line location noise_type vibration_type : Option String)
deriving DecidableEq, Repr

/-- The model capability: one `respond` invocation maps a prompt to a parsed
result or to an error (capability unavailable, malformed response, schema
mismatch — anything the `try` block would catch). -/
abbrev Capability := String → Except Unit ParsedResult

/-- Errors that can escape the script's own code paths modelled here. -/
inductive PyError where
  | attributeError
  | connectionError
  | ioError
deriving DecidableEq, Repr

/-- Embeds `convert_null`: the literal string value `"null"` becomes `None`;
every other value passes through unchanged. -/
def convert_null (value : Option String) : Option String :=
  if value = some "null" then none else value

/-- Embeds the two result-shape branches of `extract_info_from_content`:
each of the four fields is read from the mapping (via `.get`) or from the
object attribute, and passed through `convert_null`. -/
def normalize_result : ParsedResult → ExtractedInfo
  | .dict l loc nt vt =>
    { line := convert_null l, location := convert_null loc,
      noise_type := convert_null nt, vibration_type := convert_null vt }
  | .obj l loc nt vt =>
    { line := convert_null l, location := convert_null loc,
      noise_type := convert_null nt, vibration_type := convert_null vt }

/-- Embeds the fixed prompt template built from the record's content. -/
def build_prompt (content : String) : String :=
  "你是一个数据提取专家。请分析北京地铁投诉工单内容，提取关键信息。\n\n工单内容：" ++
    content ++
    "\n\n提取信息：\n1. line: 地铁线路（如1号线、2号线、13号线等）\n" ++
    "2. location: 小区名称、地点或站点\n" ++
    "3. noise_type: 噪音问题类型（如列车噪音、施工噪音、机械噪音等）\n" ++
    "4. vibration_type: 振动问题类型（如列车振动、施工振动等）\n\n" ++
    "没有明确提及的信息返回null。"

/-- Embeds `extract_info_from_content`.  The returned `Nat` counts model
invocations (0 or 1).  Control flow follows the source: `pd.isna(content)`
short-circuits; otherwise `content.strip()` runs outside any `try`, so a
non-text cell raises `AttributeError`; a blank string skips extraction; the
model call and the handling of its response sit inside `try`, so any error
there degrades to the all-absent result. -/
def extract_info_from_content (cap : Capability) (content : Cell) :
    Except PyError (ExtractedInfo × Nat) :=
  match content with
  | .na => .ok (allAbsent, 0)
  | .num _ => .error .attributeError
  | .str s =>
    if pyStrip s = "" then .ok (allAbsent, 0)
    else
      match cap (build_prompt s) with
      | .error _ => .ok (allAbsent, 1)
      | .ok r => .ok (normalize_result r, 1)

/-- One input row: the 工单内容 (content) and 来电号码 (phone) cells. -/
structure ComplaintRecord where
  content : Cell
  phone : Cell
deriving DecidableEq, Repr

/-- One output row: the original content and phone cells plus the four
extracted fields. -/
structure ResultRow where
  content : Cell
  phone : Cell
  line : Option String
  location : Option String
  noise_type : Option String
  vibration_type : Option String
deriving DecidableEq, Repr

/-- The per-record body of the loop in `process_excel_file`: extract, then
build the result row carrying the original content and phone through. -/
def process_row (cap : Capability) (r : ComplaintRecord) : Except PyError ResultRow :=
  match extract_info_from_content cap r.content with
  | .error e => .error e
  | .ok (info, _) =>
    .ok { content := r.content, phone := r.phone, line := info.line,
          location := info.location, noise_type := info.noise_type,
          vibration_type := info.vibration_type }

/-- The record loop of `process_excel_file`, carried out from position `idx`.
Returns the accumulated result rows and the number of pacing pauses
(`time.sleep(1)` fires when `(idx + 1) % 10 == 0`).  An exception from a
record's processing propagates and discards the run, as in Python. -/
def process_loop (cap : Capability) : Nat → List ComplaintRecord →
    Except PyError (List ResultRow × Nat)
  | _, [] => .ok ([], 0)
  | idx, r :: rs =>
    match process_row cap r with
    | .error e => .error e
    | .ok row =>
      match process_loop cap (idx + 1) rs with
      | .error e => .error e
      | .ok (rows, pauses) =>
        .ok (row :: rows, (if (idx + 1) % 10 = 0 then 1 else 0) + pauses)

/-- Embeds `process_excel_file` on an already-read list of records: the loop
starts at index 0.  Reading and writing the table are the collaborators
around this function and are modelled at `main`. -/
def process_excel_file (cap : Capability) (records : List ComplaintRecord) :
    Except PyError (List ResultRow × Nat) :=
  process_loop cap 0 records

/-- Embeds `main` composed with `MetroComplaintProcessor.__init__`: the
startup connection (`lms.llm()`) happens first; on failure the error is
re-raised and nothing else runs.  Only then is the input table read, and the
records processed. -/
def main_run (init : Except PyError Capability)
    (input : Except PyError (List ComplaintRecord)) :
    Except PyError (List ResultRow × Nat) :=
  match init with
  | .error e => .error e
  | .ok cap =>
    match input with
    | .error e => .error e
    | .ok records => process_excel_file cap records

/-- Distinct values of a list in order of first appearance. -/
def uniqueInOrder : List String → List String
  | [] => []
  | x :: xs => x :: (uniqueInOrder xs).filter (fun y => decide (y ≠ x))

/-- Each distinct value, in first-appearance order, paired with its
multiplicity in the list. -/
def firstCounts (l : List String) : List (String × Nat) :=
  (uniqueInOrder l).map (fun v => (v, l.count v))

/-- Descending-count comparator used to order a frequency table. -/
def countLE (a b : String × Nat) : Bool := decide (b.2 ≤ a.2)

/-- Models `pandas.Series.value_counts` on the non-absent values of a column:
the distinct values with their multiplicities, sorted by descending count;
values with equal counts keep their first-appearance order (stable sort over
the first-appearance enumeration). -/
def value_counts (l : List String) : List (String × Nat) :=
  (firstCounts l).mergeSort countLE

/-- The numbers computed by `_print_statistics` for display. -/
structure SummaryStats where
  total : Nat
  line_count : Nat
  location_count : Nat
  noise_count : Nat
  vibration_count : Nat
  line_dist : List (String × Nat)
  noise_dist : List (String × Nat)

/-- Embeds `_print_statistics`: the total row count, the four per-field
non-absent counts (`notna().sum()`), and for 线路 and 噪音类型 the
`value_counts().head(10)` frequency tables. -/
def print_statistics (rows : List ResultRow) : SummaryStats :=
  { total := rows.length,
    line_count := rows.countP (fun r => r.line.isSome),
    location_count := rows.countP (fun r => r.location.isSome),
    noise_count := rows.countP (fun r => r.noise_type.isSome),
    vibration_count := rows.countP (fun r => r.vibration_type.isSome),
    line_dist := (value_counts (rows.filterMap (fun r => r.line))).take 10,
    noise_dist := (value_counts (rows.filterMap (fun r => r.noise_type))).take 10 }

/-- Number of pacing pauses the loop performs over `n` records starting at
position `idx`: one after each record whose 1-indexed position is a multiple
of 10. -/
def pause_count (idx : Nat) : Nat → Nat
  | 0 => 0
  | n + 1 => (if (idx + 1) % 10 = 0 then 1 else 0) + pause_count (idx + 1) n

/-- A capability that always fails, for concrete instantiations. -/
def capFail : Capability := fun _ => .error ()

/-- A capability that always returns a fixed object-shaped result, for
concrete instantiations. -/
def capOk : Capability :=
  fun _ => .ok (ParsedResult.obj (some "1号线") (some "望京花园") (some "列车噪音") (some "null"))

def demoRecords : List ComplaintRecord :=
  [⟨Cell.str "1号线噪音", Cell.str "123"⟩, ⟨Cell.na, Cell.str "456"⟩]

def demoTwelve : List ComplaintRecord := List.replicate 12 ⟨Cell.na, Cell.str "1"⟩

def demoRows : List ResultRow :=
  [⟨Cell.str "a", Cell.str "1", some "1号线", none, some "列车噪音", none⟩,
   ⟨Cell.str "b", Cell.str "2", some "2号线", some "望京", none, none⟩,
   ⟨Cell.str "c", Cell.str "3", some "1号线", none, some "施工噪音", some "列车振动"⟩,
   ⟨Cell.str "d", Cell.str "4", none, none, some "列车噪音", none⟩]

/-- The contract of a displayed frequency table `d` for the multiset of
observed values `vals`: at most the top ten distinct values, exact
multiplicities, descending by count, and on equal counts first-appearance
order (each count class of `d` is an initial segment of that count class in
first-appearance order). -/
def distTable (vals : List String) (d : List (String × Nat)) : Prop :=
  d.length = min 10 (uniqueInOrder vals).length ∧
  (d.map Prod.fst).Nodup ∧
  d.Pairwise (fun a b : String × Nat => b.2 ≤ a.2) ∧
  (∀ p ∈ d, p.1 ∈ vals ∧ p.2 = vals.count p.1) ∧
  ∀ c : Nat, ∃ rest, d.filter (fun p => decide (p.2 = c)) ++ rest =
      (firstCounts vals).filter (fun p => decide (p.2 = c))

theorem pause_count_eq (n idx : Nat) : pause_count idx n = (idx + n) / 10 - idx / 10 := by
  induction n generalizing idx with
  | zero => simp [pause_count]
  | succ k ih =>
    rw [pause_count, ih (idx + 1)]
    split <;> omega

theorem extract_textual_ok (cap : Capability) (c : Cell) (h : c.isTextual = true) :
    ∃ v, extract_info_from_content cap c = .ok v := by
  cases c with
  | na => exact ⟨(allAbsent, 0), rfl⟩
  | num n => simp [Cell.isTextual] at h
  | str s =>
    unfold extract_info_from_content
    by_cases hs : pyStrip s = ""
    · exact ⟨(allAbsent, 0), by simp [hs]⟩
    · cases hr : cap (build_prompt s) with
      | error e => exact ⟨(allAbsent, 1), by simp [hs, hr]⟩
      | ok r => exact ⟨(normalize_result r, 1), by simp [hs, hr]⟩

theorem process_row_textual_ok (cap : Capability) (r : ComplaintRecord)
    (h : r.content.isTextual = true) : ∃ row, process_row cap r = .ok row := by
  obtain ⟨⟨info, k⟩, hv⟩ := extract_textual_ok cap r.content h
  refine ⟨{ content := r.content, phone := r.phone, line := info.line,
            location := info.location, noise_type := info.noise_type,
            vibration_type := info.vibration_type }, ?_⟩
  unfold process_row
  rw [hv]

theorem process_loop_ok (cap : Capability) (rs : List ComplaintRecord) :
    ∀ (idx : Nat) (rows : List ResultRow) (p : Nat),
      process_loop cap idx rs = .ok (rows, p) →
      rows.length = rs.length ∧ p = pause_count idx rs.length ∧
      ∀ i (h1 : i < rs.length) (h2 : i < rows.length),
        process_row cap (rs.get ⟨i, h1⟩) = .ok (rows.get ⟨i, h2⟩) := by
  induction rs with
  | nil =>
    intro idx rows p h
    simp only [process_loop, Except.ok.injEq, Prod.mk.injEq] at h
    obtain ⟨h1, h2⟩ := h
    subst h1; subst h2
    exact ⟨rfl, by simp [pause_count], fun i h1 h2 => absurd h1 (by simp)⟩
  | cons r rs ih =>
    intro idx rows p h
    simp only [process_loop] at h
    cases hrow : process_row cap r with
    | error e => simp [hrow] at h
    | ok row =>
      simp only [hrow] at h
      cases hrec : process_loop cap (idx + 1) rs with
      | error e => simp [hrec] at h
      | ok pr =>
        obtain ⟨rows1, p1⟩ := pr
        simp only [hrec, Except.ok.injEq, Prod.mk.injEq] at h
        obtain ⟨hrows, hp⟩ := h
        subst hrows; subst hp
        obtain ⟨hlen, hp1, hget⟩ := ih (idx + 1) rows1 p1 hrec
        refine ⟨by simp [hlen], by simp [pause_count, hp1], ?_⟩
        intro i h1 h2
        cases i with
        | zero => simpa using hrow
        | succ j =>
          have hj1 : j < rs.length := by simpa using h1
          have hj2 : j < rows1.length := by simpa using h2
          simpa using hget j hj1 hj2

theorem process_loop_textual (cap : Capability) (rs : List ComplaintRecord)
    (h : ∀ r ∈ rs, r.content.isTextual = true) :
    ∀ idx, ∃ rows, process_loop cap idx rs = .ok (rows, pause_count idx rs.length) := by
  induction rs with
  | nil => exact fun idx => ⟨[], by simp [process_loop, pause_count]⟩
  | cons r rs ih =>
    intro idx
    obtain ⟨row, hrow⟩ := process_row_textual_ok cap r (h r (List.mem_cons_self r rs))
    obtain ⟨rows, hrec⟩ := ih (fun x hx => h x (List.mem_cons_of_mem r hx)) (idx + 1)
    refine ⟨row :: rows, ?_⟩
    simp [process_loop, hrow, hrec, pause_count]

/-- C1: for every input table whose content cells are text or missing (the
input contract for 工单内容), the batch runner succeeds and produces exactly
one output row per input row, in input order — output row `i` is the row the
per-record step produces for input record `i` — for every capability,
including ones that always fail. -/
theorem batch_preserves_rows (cap : Capability) (records : List ComplaintRecord)
    (h : ∀ r ∈ records, r.content.isTextual = true) :
    ∃ rows pauses,
      process_excel_file cap records = .ok (rows, pauses) ∧
      rows.length = records.length ∧
      ∀ i (h1 : i < records.length) (h2 : i < rows.length),
        process_row cap (records.get ⟨i, h1⟩) = .ok (rows.get ⟨i, h2⟩) := by
  obtain ⟨rows, hok⟩ := process_loop_textual cap records h 0
  obtain ⟨hlen, hp, hget⟩ := process_loop_ok cap records 0 rows _ hok
  exact ⟨rows, _, hok, hlen, hget⟩

/-- Witness for C1 at a concrete two-record table and an always-failing
capability. -/
theorem batch_preserves_rows_witness :
    ∃ rows pauses,
      process_excel_file capFail demoRecords = .ok (rows, pauses) ∧
      rows.length = demoRecords.length ∧
      ∀ i (h1 : i < demoRecords.length) (h2 : i < rows.length),
        process_row capFail (demoRecords.get ⟨i, h1⟩) = .ok (rows.get ⟨i, h2⟩) :=
  batch_preserves_rows capFail demoRecords (by decide)

/-- C2: a missing (NaN) or empty content cell short-circuits: all four fields
are absent and the model capability is invoked zero times (the result does
not depend on the capability at all). -/
theorem empty_or_missing_all_absent (cap cap2 : Capability) (content : Cell)
    (h : content = Cell.na ∨ content = Cell.str "") :
    extract_info_from_content cap content = .ok (allAbsent, 0) ∧
    extract_info_from_content cap content = extract_info_from_content cap2 content := by
  rcases h with h | h <;> subst h <;> exact ⟨rfl, rfl⟩

/-- Witness for C2 at the missing cell. -/
theorem empty_or_missing_all_absent_witness :
    extract_info_from_content capFail Cell.na = .ok (allAbsent, 0) :=
  (empty_or_missing_all_absent capFail capOk Cell.na (Or.inl rfl)).1

/-- C3: when the capability fails on a record's prompt, the error is caught
and that record degrades to all-absent fields (with the one model call
counted); and in any completed batch each output row is exactly what the
per-record step produces for its own input record, so no other record's
result is affected. -/
theorem capability_error_contained (cap : Capability) (s : String) (e : Unit)
    (hs : ¬ pyStrip s = "") (he : cap (build_prompt s) = .error e) :
    extract_info_from_content cap (Cell.str s) = .ok (allAbsent, 1) ∧
    ∀ (records : List ComplaintRecord) (rows : List ResultRow) (p i : Nat)
      (h1 : i < records.length) (h2 : i < rows.length),
      process_excel_file cap records = .ok (rows, p) →
      process_row cap (records.get ⟨i, h1⟩) = .ok (rows.get ⟨i, h2⟩) := by
  constructor
  · unfold extract_info_from_content
    simp [hs, he]
  · intro records rows p i h1 h2 hok
    exact (process_loop_ok cap records 0 rows p hok).2.2 i h1 h2

/-- Witness for C3: the always-failing capability on a non-blank record. -/
theorem capability_error_contained_witness :
    extract_info_from_content capFail (Cell.str "1号线") = .ok (allAbsent, 1) :=
  (capability_error_contained capFail "1号线" () (by decide) rfl).1

/-- C4: normalization maps the literal string value "null" to absent and
every other value to itself, field by field, identically for the
mapping-shaped and the object-shaped response. -/
theorem null_sentinel_normalization :
    convert_null (some "null") = none ∧
    (∀ s : String, s ≠ "null" → convert_null (some s) = some s) ∧
    convert_null none = none ∧
    ∀ l loc nt vt : Option String,
      normalize_result (ParsedResult.dict l loc nt vt) =
        { line := convert_null l, location := convert_null loc,
          noise_type := convert_null nt, vibration_type := convert_null vt } ∧
      normalize_result (ParsedResult.obj l loc nt vt) =
        normalize_result (ParsedResult.dict l loc nt vt) := by
  refine ⟨rfl, ?_, rfl, fun l loc nt vt => ⟨rfl, rfl⟩⟩
  intro s hs
  unfold convert_null
  simp [hs]

/-- Witness for C4 on a non-sentinel value. -/
theorem null_sentinel_normalization_witness :
    convert_null (some "列车噪音") = some "列车噪音" :=
  null_sentinel_normalization.2.1 "列车噪音" (by decide)

/-- C5 counterexample: a record whose content cell is the number 5 raises
`AttributeError` in the pre-check (`content.strip()` runs outside the `try`),
and the exception terminates the whole batch: the following record is never
processed and no output is produced. -/
theorem per_record_exception_aborts_batch :
    process_excel_file capOk
      [⟨Cell.num 5, Cell.str "123"⟩, ⟨Cell.str "地铁噪音", Cell.str "456"⟩] =
      .error PyError.attributeError := rfl

/-- C5 amended: failure containment covers exactly the model invocation and
response handling — for records whose content is text or missing, no
capability failure ever terminates the batch; but an exception raised in the
pre-check on non-text content propagates and is fatal. -/
theorem model_errors_never_abort_batch (cap : Capability)
    (records : List ComplaintRecord)
    (h : ∀ r ∈ records, r.content.isTextual = true) :
    ∃ rows pauses, process_excel_file cap records = .ok (rows, pauses) := by
  obtain ⟨rows, hok⟩ := process_loop_textual cap records h 0
  exact ⟨rows, _, hok⟩

/-- Witness for the amended C5: an always-failing capability on a one-record
table still completes. -/
theorem model_errors_never_abort_batch_witness :
    ∃ rows pauses,
      process_excel_file capFail [⟨Cell.str "13号线振动", Cell.str "1"⟩] =
        .ok (rows, pauses) :=
  model_errors_never_abort_batch capFail [⟨Cell.str "13号线振动", Cell.str "1"⟩]
    (by decide)

/-- C6: a completed batch over `N` records performs exactly `N / 10` pacing
pauses (the pause fires after each record whose 1-indexed position is a
multiple of 10). -/
theorem pacing_pause_floor (cap : Capability) (records : List ComplaintRecord)
    (rows : List ResultRow) (pauses : Nat)
    (h : process_excel_file cap records = .ok (rows, pauses)) :
    pauses = records.length / 10 := by
  obtain ⟨-, hp, -⟩ := process_loop_ok cap records 0 rows pauses h
  rw [hp, pause_count_eq]
  omega

/-- Witness for C6: twelve records pause exactly once. -/
theorem pacing_pause_floor_witness : (1 : Nat) = demoTwelve.length / 10 :=
  pacing_pause_floor capFail demoTwelve
    (List.replicate 12 ⟨Cell.na, Cell.str "1", none, none, none, none⟩) 1 (by rfl)

/-- C8: if the startup connection to the model capability fails, the run
aborts with that error before the input is even consulted: no record is
processed and no output row is produced, whatever the input table holds. -/
theorem init_failure_aborts (init : Except PyError Capability)
    (input : Except PyError (List ComplaintRecord)) (e : PyError)
    (h : init = .error e) :
    main_run init input = .error e := by
  subst h; rfl

/-- Witness for C8 at a concrete failed startup. -/
theorem init_failure_aborts_witness :
    main_run (.error PyError.connectionError) (.ok demoRecords) =
      .error PyError.connectionError :=
  init_failure_aborts _ _ _ rfl

/-- C9: every produced result row carries the record's original content and
phone cells through unchanged, whatever the four extracted fields are. -/
theorem row_carries_original_fields (cap : Capability) (r : ComplaintRecord)
    (row : ResultRow) (h : process_row cap r = .ok row) :
    row.content = r.content ∧ row.phone = r.phone := by
  unfold process_row at h
  cases hx : extract_info_from_content cap r.content with
  | error e => simp [hx] at h
  | ok v =>
    obtain ⟨info, k⟩ := v
    simp only [hx, Except.ok.injEq] at h
    subst h
    exact ⟨rfl, rfl⟩

/-- Witness for C9 at a concrete record under the failing capability. -/
theorem row_carries_original_fields_witness :
    (⟨Cell.str "地铁", Cell.str "789", none, none, none, none⟩ : ResultRow).content =
        Cell.str "地铁" ∧
      (⟨Cell.str "地铁", Cell.str "789", none, none, none, none⟩ : ResultRow).phone =
        Cell.str "789" :=
  row_carries_original_fields capFail ⟨Cell.str "地铁", Cell.str "789"⟩ _ rfl

/-- C10: a non-empty content string consisting only of whitespace is treated
exactly like empty content: extraction is skipped with zero model calls and
all four fields absent. -/
theorem whitespace_only_skips (cap : Capability) (s : String)
    (h1 : s ≠ "") (h2 : ∀ c ∈ s.data, c.isWhitespace = true) :
    extract_info_from_content cap (Cell.str s) = .ok (allAbsent, 0) := by
  have hstrip : pyStrip s = "" := by
    unfold pyStrip
    have hd : s.data.dropWhile Char.isWhitespace = [] :=
      List.dropWhile_eq_nil_iff.mpr h2
    rw [hd]
    rfl
  unfold extract_info_from_content
  simp [hstrip]

/-- Witness for C10 on a blank-but-nonempty string. -/
theorem whitespace_only_skips_witness :
    extract_info_from_content capFail (Cell.str " ") = .ok (allAbsent, 0) :=
  whitespace_only_skips capFail " " (by decide) (by decide)

theorem countLE_trans : ∀ a b c : String × Nat,
    countLE a b = true → countLE b c = true → countLE a c = true := by
  intro a b c hab hbc
  simp only [countLE, decide_eq_true_eq] at hab hbc ⊢
  omega

theorem countLE_total : ∀ a b : String × Nat, (countLE a b || countLE b a) = true := by
  intro a b
  simp only [countLE, Bool.or_eq_true, decide_eq_true_eq]
  omega

theorem mem_uniqueInOrder {v : String} : ∀ {l : List String},
    v ∈ uniqueInOrder l ↔ v ∈ l := by
  intro l
  induction l with
  | nil => simp [uniqueInOrder]
  | cons x xs ih =>
    simp only [uniqueInOrder, List.mem_cons, List.mem_filter, decide_eq_true_eq, ih]
    by_cases hx : v = x <;> simp [hx]

theorem uniqueInOrder_nodup : ∀ l : List String, (uniqueInOrder l).Nodup
  | [] => List.nodup_nil
  | x :: xs => by
    simp only [uniqueInOrder, List.nodup_cons]
    refine ⟨fun hmem => ?_, (uniqueInOrder_nodup xs).filter _⟩
    have := (List.mem_filter.mp hmem).2
    simp at this

theorem mem_firstCounts {p : String × Nat} {l : List String} (h : p ∈ firstCounts l) :
    p.1 ∈ l ∧ p.2 = l.count p.1 := by
  unfold firstCounts at h
  obtain ⟨v, hv, rfl⟩ := List.mem_map.mp h
  exact ⟨mem_uniqueInOrder.mp hv, rfl⟩

theorem firstCounts_map_fst (l : List String) :
    (firstCounts l).map Prod.fst = uniqueInOrder l := by
  simp [firstCounts, List.map_map, Function.comp_def]

theorem value_counts_sorted (l : List String) :
    (value_counts l).Pairwise (fun a b : String × Nat => b.2 ≤ a.2) := by
  have h := List.sorted_mergeSort countLE_trans countLE_total (firstCounts l)
  exact h.imp (fun hab => by simpa [countLE] using hab)

theorem value_counts_perm (l : List String) :
    (value_counts l).Perm (firstCounts l) :=
  List.mergeSort_perm (firstCounts l) countLE

theorem value_counts_filter_eq (l : List String) (c : Nat) :
    (value_counts l).filter (fun p => decide (p.2 = c)) =
      (firstCounts l).filter (fun p => decide (p.2 = c)) := by
  have hpair : ((firstCounts l).filter (fun p => decide (p.2 = c))).Pairwise
      (fun a b => countLE a b = true) := by
    apply List.pairwise_of_forall_mem_list
    intro a ha b hb
    have ha2 := (List.mem_filter.mp ha).2
    have hb2 := (List.mem_filter.mp hb).2
    simp only [decide_eq_true_eq] at ha2 hb2
    simp [countLE, ha2, hb2]
  have hsub : ((firstCounts l).filter (fun p => decide (p.2 = c))).Sublist (value_counts l) :=
    List.sublist_mergeSort countLE_trans countLE_total hpair (List.filter_sublist _)
  have hself : ((firstCounts l).filter (fun p => decide (p.2 = c))).filter
      (fun p => decide (p.2 = c)) = (firstCounts l).filter (fun p => decide (p.2 = c)) :=
    List.filter_eq_self.mpr (fun a ha => (List.mem_filter.mp ha).2)
  have hsub2 := List.Sublist.filter (fun p => decide (p.2 = c)) hsub
  rw [hself] at hsub2
  have hperm := List.Perm.filter (fun p => decide (p.2 = c)) (value_counts_perm l)
  exact (List.Sublist.eq_of_length hsub2 hperm.length_eq.symm).symm

theorem distTable_take (vals : List String) :
    distTable vals ((value_counts vals).take 10) := by
  refine ⟨?_, ?_, ?_, ?_, ?_⟩
  · simp [value_counts, firstCounts, List.length_take]
  · have hperm : ((value_counts vals).map Prod.fst).Perm (uniqueInOrder vals) := by
      rw [← firstCounts_map_fst]
      exact (value_counts_perm vals).map Prod.fst
    have hnodup : ((value_counts vals).map Prod.fst).Nodup :=
      (hperm.nodup_iff).mpr (uniqueInOrder_nodup vals)
    rw [List.map_take]
    exact hnodup.sublist (List.take_sublist 10 _)
  · exact (value_counts_sorted vals).sublist (List.take_sublist 10 _)
  · intro p hp
    exact mem_firstCounts ((value_counts_perm vals).mem_iff.mp (List.mem_of_mem_take hp))
  · intro c
    refine ⟨((value_counts vals).drop 10).filter (fun p => decide (p.2 = c)), ?_⟩
    rw [← List.filter_append, List.take_append_drop, value_counts_filter_eq]

/-- C7: over any result table, the reporter computes the total row count and,
for each of the four fields, the exact number of non-absent values; and for
the line and noise-type fields it produces a frequency table of the distinct
observed values with exact multiplicities, sorted descending by count,
truncated to the top ten, with ties kept in first-encountered order. -/
theorem reporter_statistics (rows : List ResultRow) :
    (print_statistics rows).total = rows.length ∧
    (print_statistics rows).line_count =
      (rows.filter (fun r => r.line.isSome)).length ∧
    (print_statistics rows).location_count =
      (rows.filter (fun r => r.location.isSome)).length ∧
    (print_statistics rows).noise_count =
      (rows.filter (fun r => r.noise_type.isSome)).length ∧
    (print_statistics rows).vibration_count =
      (rows.filter (fun r => r.vibration_type.isSome)).length ∧
    distTable (rows.filterMap (fun r => r.line)) (print_statistics rows).line_dist ∧
    distTable (rows.filterMap (fun r => r.noise_type)) (print_statistics rows).noise_dist := by
  refine ⟨rfl, ?_, ?_, ?_, ?_, distTable_take _, distTable_take _⟩ <;>
    simp [print_statistics, List.countP_eq_length_filter]

/-- Witness for C7 at a concrete four-row result table. -/
theorem reporter_statistics_witness :
    (print_statistics demoRows).total = demoRows.length ∧
    (print_statistics demoRows).line_count =
      (demoRows.filter (fun r => r.line.isSome)).length ∧
    (print_statistics demoRows).location_count =
      (demoRows.filter (fun r => r.location.isSome)).length ∧
    (print_statistics demoRows).noise_count =
      (demoRows.filter (fun r => r.noise_type.isSome)).length ∧
    (print_statistics demoRows).vibration_count =
      (demoRows.filter (fun r => r.vibration_type.isSome)).length ∧
    distTable (demoRows.filterMap (fun r => r.line)) (print_statistics demoRows).line_dist ∧
    distTable (demoRows.filterMap (fun r => r.noise_type)) (print_statistics demoRows).noise_dist :=
  reporter_statistics demoRows
